import Mathlib

/-!
Verification development for the DriftGuard repository.

The embedding covers, translated from the sources:
  - the frontend service layer (driftsService, recommendationsService,
    environmentsService, organizationsService, authService), with
    JavaScript truthiness modelled explicitly over a small JSON value type;
  - the Drifts and Dashboard view logic that gates the analyze action and
    maps severity scores to labels and colors;
  - the stored database schema constraints (CHECK clauses of the
    drift_events, drift_cause_analysis and recommendations tables),
    modelled as row predicates guarding inserts;
  - the analysis orchestrator and recommendation lifecycle, which exist in
    the repository only as the specification and the API surface; these are
    modelled from the spec and marked as such in their doc comments.
-/

namespace DriftGuard

/-- A JSON-like value, the shape of axios response bodies and JSONB columns.
Absent object fields are read as `null`, standing for undefined. -/
inductive JsonVal where
  | null
  | bool (b : Bool)
  | num (q : ℚ)
  | str (s : String)
  | arr (elems : List JsonVal)
  | obj (fields : List (String × JsonVal))

/-- JavaScript truthiness of a value: null and undefined, false, 0 and the
empty string are falsy; arrays and objects are always truthy. -/
def truthy : JsonVal → Bool
  | .null => false
  | .bool b => b
  | .num q => decide (q ≠ 0)
  | .str s => decide (s ≠ "")
  | .arr _ => true
  | .obj _ => true

/-- Property access `v.k`: the first binding of the key in an object,
`null` (standing for undefined) otherwise. -/
def getField : JsonVal → String → JsonVal
  | .obj fields, k =>
    match fields.find? (fun p => p.1 == k) with
    | some p => p.2
    | none => .null
  | _, _ => .null

/-- Whether an object carries the key at all (even bound to a falsy value). -/
def hasField : JsonVal → String → Bool
  | .obj fields, k => fields.any (fun p => p.1 == k)
  | _, _ => false

/-- Array.isArray. -/
def isArr : JsonVal → Bool
  | .arr _ => true
  | _ => false

/-! ## Drifts view severity mapping (frontend components, Drifts)

From the Drifts component: `getSeverityColor` and `getSeverityLabel` map a
numeric severity score to a chip color and label by the same threshold
cascade. Scores are embedded as rationals. -/

/-- Chip color for a severity score, from the Drifts component. -/
def getSeverityColor (score : ℚ) : String :=
  if score ≥ 0.8 then "#f44336"
  else if score ≥ 0.6 then "#ff9800"
  else if score ≥ 0.4 then "#ffeb3b"
  else "#4caf50"

/-- Chip label for a severity score, from the Drifts component. -/
def getSeverityLabel (score : ℚ) : String :=
  if score ≥ 0.8 then "Critical"
  else if score ≥ 0.6 then "High"
  else if score ≥ 0.4 then "Medium"
  else "Low"

/-- The color the Drifts component pairs with each severity label
(red, orange, yellow, green in the comments of the source). -/
def severityColorOfLabel : String → String
  | "Critical" => "#f44336"
  | "High" => "#ff9800"
  | "Medium" => "#ffeb3b"
  | _ => "#4caf50"

/-! ## Stored schema rows and CHECK constraints (database schema document)

Rows of the `drift_events`, `drift_cause_analysis` and `recommendations`
tables, with their CHECK clauses translated to boolean row predicates. SQL
CHECK semantics: a NULL operand satisfies the constraint, so nullable
scored columns are embedded as `Option` with `none` passing the check. -/

/-- The closed cause-category enumeration of the drift_cause_analysis CHECK. -/
def causeCategoryEnum : List String :=
  ["emergency_fix", "manual_troubleshooting", "security_response",
   "configuration_error", "automated_response", "unknown"]

/-- The drift_type enumeration of the drift_events CHECK clause. -/
def driftTypeEnum : List String :=
  ["modified", "deleted", "added", "moved"]

/-- The resolution_type enumeration of the drift_events CHECK clause. -/
def resolutionTypeEnum : List String :=
  ["auto_revert", "codify_iac", "accepted", "escalated"]

/-- A nullable DECIMAL(3,2) column constrained to [0,1]; NULL passes. -/
def inUnitIntervalOpt : Option ℚ → Bool
  | none => true
  | some v => decide (0 ≤ v) && decide (v ≤ 1)

/-- A stored drift_events row. -/
structure DriftEventRow where
  id : Nat
  environment_id : Nat
  iac_resource_id : Nat
  drift_type : String
  actual_state : Option JsonVal
  declared_state : Option JsonVal
  detected_at : Nat
  resolved_at : Option Nat
  resolution_type : Option String
  severity_score : Option ℚ
  confidence_score : Option ℚ

/-- The CHECK clauses of the drift_events table. -/
def driftEventRowCheck (r : DriftEventRow) : Bool :=
  driftTypeEnum.contains r.drift_type &&
  (match r.resolution_type with
   | none => true
   | some t => resolutionTypeEnum.contains t) &&
  inUnitIntervalOpt r.severity_score &&
  inUnitIntervalOpt r.confidence_score

/-- A stored drift_cause_analysis row; cause_category and confidence_score
are NOT NULL columns. -/
structure CauseAnalysisRow where
  id : Nat
  drift_event_id : Nat
  cause_category : String
  confidence_score : ℚ
  contributing_factors : List JsonVal
  temporal_context : JsonVal
  user_attribution : JsonVal
  analyzed_at : Nat

/-- The CHECK clauses of the drift_cause_analysis table. -/
def causeAnalysisRowCheck (r : CauseAnalysisRow) : Bool :=
  causeCategoryEnum.contains r.cause_category &&
  decide (0 ≤ r.confidence_score) && decide (r.confidence_score ≤ 1)

/-- Inserting into drift_events: the row is persisted only when its CHECK
constraints hold, otherwise the statement is rejected and the table is
unchanged. -/
def insertDriftEvent (db : List DriftEventRow) (r : DriftEventRow) :
    List DriftEventRow :=
  if driftEventRowCheck r then r :: db else db

/-- Inserting into drift_cause_analysis under its CHECK constraints. -/
def insertCauseAnalysis (db : List CauseAnalysisRow) (r : CauseAnalysisRow) :
    List CauseAnalysisRow :=
  if causeAnalysisRowCheck r then r :: db else db

/-- Tables reachable from empty by constraint-guarded inserts. -/
inductive DriftTableReachable : List DriftEventRow → Prop where
  | empty : DriftTableReachable []
  | insert (db : List DriftEventRow) (r : DriftEventRow) :
      DriftTableReachable db → DriftTableReachable (insertDriftEvent db r)

/-- Cause-analysis tables reachable from empty by constraint-guarded inserts. -/
inductive CauseTableReachable : List CauseAnalysisRow → Prop where
  | empty : CauseTableReachable []
  | insert (db : List CauseAnalysisRow) (r : CauseAnalysisRow) :
      CauseTableReachable db → CauseTableReachable (insertCauseAnalysis db r)

/-! ## Client data model (frontend types/api.ts)

The records the frontend receives; `any`-typed fields are embedded as
`JsonVal`, nullable or optional fields as `Option`. -/

/-- A DriftChange record of the client data model. -/
structure DriftChange where
  id : Nat
  property_path : String
  declared_value : JsonVal
  actual_value : JsonVal
  change_type : String
  is_security_critical : Bool
  change_impact : String
  value_diff : String
  created_at : String

/-- A DriftCauseAnalysis record of the client data model. -/
structure DriftCauseAnalysis where
  cause_category : String
  confidence_score : ℚ
  contributing_factors : List JsonVal
  temporal_context : JsonVal
  user_attribution : JsonVal
  analyzed_at : String
  analyzed_by : String
  natural_language_explanation : String

/-- A RecommendationSummary record of the client data model. -/
structure RecommendationSummary where
  id : Nat
  recommendation_type : String
  priority : String
  confidence_score : ℚ
  title : String
  rationale : String
  implementation_steps : List String
  estimated_effort : String
  recommended_by : String
  created_at : String

/-- The DriftEvent record exposed to the client; drift_type is a plain
string in the source interface. -/
structure DriftEvent where
  id : Nat
  environment : Nat
  environment_name : String
  iac_resource : Nat
  iac_resource_id : String
  drift_type : String
  actual_state : JsonVal
  declared_state : JsonVal
  detected_at : String
  resolved_at : Option String
  resolution_type : Option String
  resolution_notes : Option String
  severity_score : ℚ
  confidence_score : ℚ
  risk_assessment : String
  tags : List String
  metadata : JsonVal
  is_resolved : Bool
  duration : Option ℚ
  changes_count : Nat
  changes : List DriftChange
  cause_analysis : Option DriftCauseAnalysis
  recommendations : List RecommendationSummary
  created_at : String
  updated_at : String

/-! ## View guards and the client step relation (Drifts, Dashboard)

Both views render the analyze control only under a guard on the drift
record; pressing it issues `driftsService.analyzeDrift` for that drift. -/

/-- Guard of the analyze control in the Drifts view:
`!drift.cause_analysis && !drift.is_resolved`. -/
def driftsAnalyzeVisible (d : DriftEvent) : Bool :=
  d.cause_analysis.isNone && !d.is_resolved

/-- Guard of the analyze control in the Dashboard view:
`!drift.is_resolved && !drift.cause_analysis`. -/
def dashboardAnalyzeVisible (d : DriftEvent) : Bool :=
  !d.is_resolved && d.cause_analysis.isNone

/-- Guard of the resolve control in both views: `!drift.is_resolved`. -/
def resolveVisible (d : DriftEvent) : Bool :=
  !d.is_resolved

/-- A request the client can issue to the drifts API. -/
inductive ClientRequest where
  | analyze (id : Nat) (context : Option JsonVal)
  | resolve (id : Nat) (resolution_type : String) (resolution_notes : String)
  | fetchDrifts

/-- One step of the client against a fetched drift list: a request is
issued only through a control the views actually render. -/
inductive ClientStep : List DriftEvent → ClientRequest → Prop where
  | analyzeFromDrifts (ds : List DriftEvent) (d : DriftEvent) :
      d ∈ ds → driftsAnalyzeVisible d = true →
      ClientStep ds (.analyze d.id none)
  | analyzeFromDashboard (ds : List DriftEvent) (d : DriftEvent) :
      d ∈ ds → dashboardAnalyzeVisible d = true →
      ClientStep ds (.analyze d.id none)
  | resolveFromDrifts (ds : List DriftEvent) (d : DriftEvent) :
      d ∈ ds → resolveVisible d = true →
      ClientStep ds (.resolve d.id "user_action" "Resolved via UI")
  | refresh (ds : List DriftEvent) : ClientStep ds .fetchDrifts

/-! ## List-fetching services (driftsService, recommendationsService,
environmentsService, organizationsService)

All four share the same body handling: return `response.data.results` when
`response.data && response.data.results` is truthy, else the body itself
when it is an array, else the empty array. -/

/-- The shared unwrap of a list response body. -/
def unwrapListResponse (data : JsonVal) : JsonVal :=
  if truthy data && truthy (getField data "results") then getField data "results"
  else if isArr data then data
  else .arr []

/-- driftsService.getDrifts applied to a response body. -/
def getDrifts (data : JsonVal) : JsonVal := unwrapListResponse data

/-- recommendationsService.getRecommendations applied to a response body. -/
def getRecommendations (data : JsonVal) : JsonVal := unwrapListResponse data

/-- environmentsService.getEnvironments applied to a response body. -/
def getEnvironments (data : JsonVal) : JsonVal := unwrapListResponse data

/-- organizationsService.getOrganizations applied to a response body. -/
def getOrganizations (data : JsonVal) : JsonVal := unwrapListResponse data

/-- Body of the implementRecommendation POST: `{ result: result || {} }`,
with the JavaScript or-default on a possibly undefined argument. -/
def implementRequestBody (result : JsonVal) : JsonVal :=
  .obj [("result", if truthy result then result else .obj [])]

/-! ## authService and localStorage

localStorage is an association of string keys to string values; getItem
yields null for an absent key, and `!!getItem(k)` is the truthiness of the
stored string (the empty string is falsy). -/

/-- The localStorage state. -/
def Storage : Type := List (String × String)

/-- localStorage.getItem. -/
def getItem (st : Storage) (k : String) : Option String :=
  (st.find? (fun p => p.1 == k)).map (·.2)

/-- localStorage.setItem: rebind the key. -/
def setItem (st : Storage) (k v : String) : Storage :=
  (k, v) :: st.filter (fun p => !(p.1 == k))

/-- localStorage.removeItem. -/
def removeItem (st : Storage) (k : String) : Storage :=
  st.filter (fun p => !(p.1 == k))

/-- authService.login: store both tokens of the auth response. -/
def login (st : Storage) (access refresh : String) : Storage :=
  setItem (setItem st "access_token" access) "refresh_token" refresh

/-- authService.register: stores the tokens exactly as login does. -/
def registerUser (st : Storage) (access refresh : String) : Storage :=
  setItem (setItem st "access_token" access) "refresh_token" refresh

/-- authService.logout: remove both tokens. -/
def logout (st : Storage) : Storage :=
  removeItem (removeItem st "access_token") "refresh_token"

/-- Truthiness of a getItem read, as `!!localStorage.getItem(k)`. -/
def truthyRead : Option String → Bool
  | none => false
  | some s => decide (s ≠ "")

/-- authService.isAuthenticated: `!!localStorage.getItem(access_token)`. -/
def isAuthenticated (st : Storage) : Bool :=
  truthyRead (getItem st "access_token")

/-! ## Recommendation lifecycle (backend, modelled from the spec)

The backend that creates, supersedes, queries and implements
recommendations is not part of the source tree; only its schema (the
recommendations table), its API surface and the frontend callers are. The
following definitions model it from the spec. Time is in seconds. -/

/-- A stored recommendations row; the batch field is the analysis-run
counter the spec uses for supersession (a fresh batch each run, prior
batches retained). -/
structure RecRow where
  id : Nat
  drift_event_id : Nat
  batch : Nat
  recommendation_type : String
  priority : String
  confidence_score : ℚ
  rationale : String
  implementation_steps : List String
  estimated_effort : String
  recommended_by : String
  created_at : Nat
  expires_at : Option Nat
  implemented_at : Option Nat
  implementation_result : Option JsonVal

/-- Modelled from the spec: a recommendation is expired when its expiry
time has passed and it was never implemented. -/
def isExpired (now : Nat) (r : RecRow) : Bool :=
  (match r.expires_at with
   | none => false
   | some e => decide (e < now)) && r.implemented_at.isNone

/-- The newest batch number among the recommendations of a drift event. -/
def latestBatch (store : List RecRow) (drift : Nat) : Nat :=
  ((store.filter (fun r => r.drift_event_id == drift)).map
    (fun r => r.batch)).foldr max 0

/-- Modelled from the spec: a recommendation is superseded when a later
batch exists for its drift event. -/
def isSuperseded (store : List RecRow) (r : RecRow) : Bool :=
  decide (r.batch < latestBatch store r.drift_event_id)

/-- Modelled from the spec: GetActiveRecommendations filters the retained
store down to the current batch of the drift event, dropping expired
unimplemented and superseded rows; it deletes nothing. -/
def getActiveRecommendations (store : List RecRow) (drift : Nat) (now : Nat) :
    List RecRow :=
  store.filter fun r =>
    r.drift_event_id == drift && !(isExpired now r) && !(isSuperseded store r)

/-- Modelled from the spec: a re-analysis appends its fresh batch of
recommendations; prior rows are not deleted, only superseded. -/
def addBatch (store : List RecRow) (fresh : List RecRow) : List RecRow :=
  fresh ++ store

/-- Modelled from the spec: RecommendationEngine creates a recommendation;
with no explicit expiry, expires_at defaults to creation time plus 24
hours (86400 seconds). -/
def createRecommendation (now : Nat) (explicitExpiry : Option Nat)
    (rid drift batch : Nat) (rtype priority : String) (conf : ℚ)
    (rationale : String) (steps : List String) (effort by_ : String) :
    RecRow :=
  { id := rid
    drift_event_id := drift
    batch := batch
    recommendation_type := rtype
    priority := priority
    confidence_score := conf
    rationale := rationale
    implementation_steps := steps
    estimated_effort := effort
    recommended_by := by_
    created_at := now
    expires_at := some (explicitExpiry.getD (now + 86400))
    implemented_at := none
    implementation_result := none }

/-- Modelled from the spec: the per-row effect of MarkImplemented — only
implemented_at and implementation_result are set, every other column is
carried over. -/
def implementUpdate (rid now : Nat) (result : JsonVal) (r : RecRow) : RecRow :=
  if r.id = rid then
    { r with implemented_at := some now, implementation_result := some result }
  else r

/-- Modelled from the spec: MarkImplemented records the outcome on the
addressed row and touches nothing else. -/
def markImplemented (store : List RecRow) (rid now : Nat)
    (result : JsonVal) : List RecRow :=
  store.map (implementUpdate rid now result)

/-! ## Analysis orchestrator (backend, modelled from the spec)

Job control per drift_id: SubmitAnalysis returns the existing handle while
a non-terminal job exists, otherwise enqueues a fresh job; jobs step from
queued to running to a terminal state. Interleaved submissions are the
interleavings of the step relation. -/

/-- The job state machine of the orchestrator. -/
inductive JobState where
  | queued
  | running
  | completed
  | failed
deriving DecidableEq

/-- A job is non-terminal while queued or running. -/
def JobState.nonTerminal : JobState → Bool
  | .queued => true
  | .running => true
  | .completed => false
  | .failed => false

/-- An analysis job record. -/
structure Job where
  job_id : Nat
  drift_id : Nat
  state : JobState
deriving DecidableEq

/-- The orchestrator state: the job records and the next fresh handle. -/
structure OrchState where
  jobs : List Job
  nextId : Nat
deriving DecidableEq

/-- The live (non-terminal) jobs of a drift event. -/
def liveJobs (s : OrchState) (d : Nat) : List Job :=
  s.jobs.filter fun j => j.drift_id == d && j.state.nonTerminal

/-- All job records of a drift event, terminal ones included. -/
def jobsFor (s : OrchState) (d : Nat) : List Job :=
  s.jobs.filter fun j => j.drift_id == d

/-- Modelled from the spec: SubmitAnalysis(drift_id) returns the existing
handle when a non-terminal job for the drift exists, and enqueues exactly
one fresh queued job otherwise. -/
def submitAnalysis (s : OrchState) (d : Nat) : OrchState × Nat :=
  match s.jobs.find? (fun j => j.drift_id == d && j.state.nonTerminal) with
  | some j => (s, j.job_id)
  | none =>
    ({ jobs := ⟨s.nextId, d, JobState.queued⟩ :: s.jobs, nextId := s.nextId + 1 },
     s.nextId)

/-- Per-job effect of moving the addressed job to a new state. -/
def updState (jid : Nat) (st : JobState) (j : Job) : Job :=
  if j.job_id = jid then { j with state := st } else j

/-- Move the addressed job to a new state. -/
def setJobState (s : OrchState) (jid : Nat) (st : JobState) : OrchState :=
  { s with jobs := s.jobs.map (updState jid st) }

/-- N repeated submissions for the same drift event. -/
def submitIter : Nat → OrchState → Nat → OrchState
  | 0, s, _ => s
  | n + 1, s, d => submitIter n (submitAnalysis s d).1 d

/-- One interleaved transition of the orchestrator. -/
inductive OrchStep : OrchState → OrchState → Prop where
  | submit (s : OrchState) (d : Nat) : OrchStep s (submitAnalysis s d).1
  | start (s : OrchState) (j : Job) :
      j ∈ s.jobs → j.state = .queued →
      OrchStep s (setJobState s j.job_id .running)
  | complete (s : OrchState) (j : Job) :
      j ∈ s.jobs → j.state = .running →
      OrchStep s (setJobState s j.job_id .completed)
  | fail (s : OrchState) (j : Job) :
      j ∈ s.jobs → j.state = .running →
      OrchStep s (setJobState s j.job_id .failed)

/-- The initial orchestrator state. -/
def orchInit : OrchState := { jobs := [], nextId := 0 }

/-- Orchestrator states reachable under any interleaving of transitions. -/
inductive OrchReachable : OrchState → Prop where
  | init : OrchReachable orchInit
  | step (s t : OrchState) : OrchReachable s → OrchStep s t → OrchReachable t

/-- Modelled from the spec: the analyze endpoint short-circuits for a
resolved event, serving the cached analysis without running the pipeline. -/
inductive AnalyzeOutcome where
  | cached (a : Option DriftCauseAnalysis)
  | run

/-- Modelled from the spec: analyzing an already-resolved DriftEvent
returns the last cached analysis without re-running the pipeline; only an
unresolved event is eligible for analysis. -/
def analyzeEndpoint (ev : DriftEvent) : AnalyzeOutcome :=
  if ev.is_resolved then .cached ev.cause_analysis else .run

/-! ## Theorems -/

/-- C1: for every numeric severity score, the Drifts view maps scores at or
above 0.8 to Critical, scores in [0.6, 0.8) to High, scores in [0.4, 0.6)
to Medium and scores below 0.4 to Low, and getSeverityColor pairs each
score with exactly the color of its label. -/
theorem severity_threshold_mapping (s : ℚ) :
    (0.8 ≤ s → getSeverityLabel s = "Critical") ∧
    (0.6 ≤ s ∧ s < 0.8 → getSeverityLabel s = "High") ∧
    (0.4 ≤ s ∧ s < 0.6 → getSeverityLabel s = "Medium") ∧
    (s < 0.4 → getSeverityLabel s = "Low") ∧
    getSeverityColor s = severityColorOfLabel (getSeverityLabel s) := by
  unfold getSeverityLabel getSeverityColor
  split_ifs with h1 h2 h3
  · exact ⟨fun _ => rfl,
      fun h => by exfalso; obtain ⟨ha, hb⟩ := h; linarith,
      fun h => by exfalso; obtain ⟨ha, hb⟩ := h; linarith,
      fun h => by exfalso; linarith, rfl⟩
  · exact ⟨fun h => by exfalso; exact h1 h,
      fun _ => rfl,
      fun h => by exfalso; obtain ⟨ha, hb⟩ := h; linarith,
      fun h => by exfalso; linarith, rfl⟩
  · exact ⟨fun h => by exfalso; exact h1 h,
      fun h => by exfalso; exact h2 h.1,
      fun _ => rfl,
      fun h => by exfalso; linarith, rfl⟩
  · exact ⟨fun h => by exfalso; exact h1 h,
      fun h => by exfalso; exact h2 h.1,
      fun h => by exfalso; exact h3 h.1,
      fun _ => rfl, rfl⟩

/-- Every row of a reachable drift_cause_analysis table passed its CHECK
constraints on insertion. -/
theorem causeTable_rows_checked {db : List CauseAnalysisRow}
    (h : CauseTableReachable db) :
    ∀ r ∈ db, causeAnalysisRowCheck r = true := by
  induction h with
  | empty => intro r hr; cases hr
  | insert db r _ ih =>
    intro x hx
    unfold insertCauseAnalysis at hx
    by_cases hc : causeAnalysisRowCheck r = true
    · rw [if_pos hc] at hx
      rcases List.mem_cons.mp hx with rfl | hx
      · exact hc
      · exact ih x hx
    · rw [if_neg hc] at hx
      exact ih x hx

/-- Every row of a reachable drift_events table passed its CHECK
constraints on insertion. -/
theorem driftTable_rows_checked {db : List DriftEventRow}
    (h : DriftTableReachable db) :
    ∀ r ∈ db, driftEventRowCheck r = true := by
  induction h with
  | empty => intro r hr; cases hr
  | insert db r _ ih =>
    intro x hx
    unfold insertDriftEvent at hx
    by_cases hc : driftEventRowCheck r = true
    · rw [if_pos hc] at hx
      rcases List.mem_cons.mp hx with rfl | hx
      · exact hc
      · exact ih x hx
    · rw [if_neg hc] at hx
      exact ih x hx

/-- A nullable unit-interval column that passes its check is in [0,1]
whenever it is set. -/
theorem inUnitIntervalOpt_sound {o : Option ℚ} (h : inUnitIntervalOpt o = true) :
    ∀ v, o = some v → 0 ≤ v ∧ v ≤ 1 := by
  intro v hv
  subst hv
  simpa [inUnitIntervalOpt] using h

/-- C2: every persisted CauseAnalysis row draws cause_category from the
closed six-value enumeration and has confidence_score in [0,1], and every
persisted drift_events row has severity_score and confidence_score in
[0,1] whenever those columns are set. -/
theorem persisted_scores_in_range (edb : List DriftEventRow)
    (cdb : List CauseAnalysisRow)
    (he : DriftTableReachable edb) (hc : CauseTableReachable cdb) :
    (∀ r ∈ cdb, r.cause_category ∈ causeCategoryEnum ∧
      0 ≤ r.confidence_score ∧ r.confidence_score ≤ 1) ∧
    (∀ r ∈ edb, ∀ v, r.severity_score = some v → 0 ≤ v ∧ v ≤ 1) ∧
    (∀ r ∈ edb, ∀ v, r.confidence_score = some v → 0 ≤ v ∧ v ≤ 1) := by
  refine ⟨?_, ?_, ?_⟩
  · intro r hr
    have h := causeTable_rows_checked hc r hr
    unfold causeAnalysisRowCheck at h
    simp only [Bool.and_eq_true, decide_eq_true_eq] at h
    exact ⟨List.elem_iff.mp h.1.1, h.1.2, h.2⟩
  · intro r hr
    have h := driftTable_rows_checked he r hr
    unfold driftEventRowCheck at h
    simp only [Bool.and_eq_true] at h
    exact inUnitIntervalOpt_sound h.1.2
  · intro r hr
    have h := driftTable_rows_checked he r hr
    unfold driftEventRowCheck at h
    simp only [Bool.and_eq_true] at h
    exact inUnitIntervalOpt_sound h.2

/-- A concrete valid drift_cause_analysis row. -/
def exCauseRow : CauseAnalysisRow :=
  { id := 1
    drift_event_id := 7
    cause_category := "configuration_error"
    confidence_score := 0.92
    contributing_factors := []
    temporal_context := .null
    user_attribution := .null
    analyzed_at := 100 }

/-- A concrete valid drift_events row. -/
def exDriftRow : DriftEventRow :=
  { id := 7
    environment_id := 1
    iac_resource_id := 3
    drift_type := "modified"
    actual_state := none
    declared_state := none
    detected_at := 50
    resolved_at := none
    resolution_type := none
    severity_score := some 0.55
    confidence_score := some 0.7 }

/-- C2 witness: the range and membership constraints, evaluated on a
concrete persisted row. -/
theorem persisted_scores_in_range_witness :
    exCauseRow.cause_category ∈ causeCategoryEnum ∧
    0 ≤ exCauseRow.confidence_score ∧ exCauseRow.confidence_score ≤ 1 := by
  have hcat : exCauseRow.cause_category = "configuration_error" := rfl
  have hconf : exCauseRow.confidence_score = 0.92 := rfl
  have hcheck : causeAnalysisRowCheck exCauseRow = true := by
    unfold causeAnalysisRowCheck
    rw [hcat, hconf]
    simp only [Bool.and_eq_true, decide_eq_true_eq]
    exact ⟨⟨by decide, by norm_num⟩, by norm_num⟩
  have hmem : exCauseRow ∈ insertCauseAnalysis [] exCauseRow := by
    unfold insertCauseAnalysis
    rw [if_pos hcheck]
    exact List.mem_singleton.mpr rfl
  exact (persisted_scores_in_range (insertDriftEvent [] exDriftRow)
    (insertCauseAnalysis [] exCauseRow)
    (DriftTableReachable.insert [] exDriftRow DriftTableReachable.empty)
    (CauseTableReachable.insert [] exCauseRow CauseTableReachable.empty)).1
    exCauseRow hmem

/-- C3: when the client issues the analyze request, some fetched drift with
that id is unresolved and carries no cause analysis (both views gate the
control on exactly this), and the modelled analyze endpoint serves the
cached analysis for any resolved event instead of running. -/
theorem analyze_only_unresolved (ds : List DriftEvent) (i : Nat)
    (ctx : Option JsonVal) (h : ClientStep ds (.analyze i ctx)) :
    (∃ d ∈ ds, d.id = i ∧ d.is_resolved = false ∧ d.cause_analysis = none) ∧
    (∀ ev : DriftEvent, ev.is_resolved = true →
      analyzeEndpoint ev = .cached ev.cause_analysis) := by
  constructor
  · cases h with
    | analyzeFromDrifts d hmem hvis =>
      unfold driftsAnalyzeVisible at hvis
      simp only [Bool.and_eq_true, Option.isNone_iff_eq_none,
        Bool.not_eq_true'] at hvis
      exact ⟨d, hmem, rfl, hvis.2, hvis.1⟩
    | analyzeFromDashboard d hmem hvis =>
      unfold dashboardAnalyzeVisible at hvis
      simp only [Bool.and_eq_true, Option.isNone_iff_eq_none,
        Bool.not_eq_true'] at hvis
      exact ⟨d, hmem, rfl, hvis.1, hvis.2⟩
  · intro ev hev
    unfold analyzeEndpoint
    rw [if_pos hev]

/-- A concrete unresolved, unanalyzed drift event as the client sees it. -/
def exDrift : DriftEvent :=
  { id := 42
    environment := 1
    environment_name := "production"
    iac_resource := 9
    iac_resource_id := "aws_instance.web"
    drift_type := "modified"
    actual_state := .obj []
    declared_state := .obj []
    detected_at := "2024-01-15T14:30:00Z"
    resolved_at := none
    resolution_type := none
    resolution_notes := none
    severity_score := 0.55
    confidence_score := 0.7
    risk_assessment := ""
    tags := []
    metadata := .null
    is_resolved := false
    duration := none
    changes_count := 1
    changes := []
    cause_analysis := none
    recommendations := []
    created_at := "2024-01-15T14:30:00Z"
    updated_at := "2024-01-15T14:30:00Z" }

/-- C3 witness: the analyze request issued from the Drifts view on a
concrete unresolved drift. -/
theorem analyze_only_unresolved_witness :
    (∃ d ∈ [exDrift], d.id = exDrift.id ∧ d.is_resolved = false ∧
      d.cause_analysis = none) ∧
    (∀ ev : DriftEvent, ev.is_resolved = true →
      analyzeEndpoint ev = .cached ev.cause_analysis) :=
  analyze_only_unresolved [exDrift] exDrift.id none
    (ClientStep.analyzeFromDrifts [exDrift] exDrift
      (List.mem_singleton.mpr rfl) rfl)

/-- A drift_events row whose drift_type is "deleted": admitted by the
stored CHECK constraint, outside the drift-type set the spec claims. -/
def deletedRow : DriftEventRow :=
  { id := 2
    environment_id := 1
    iac_resource_id := 4
    drift_type := "deleted"
    actual_state := none
    declared_state := none
    detected_at := 60
    resolved_at := none
    resolution_type := none
    severity_score := none
    confidence_score := none }

/-- C4 counterexample: the stored drift_events constraint admits the value
"deleted", which is not among the four claimed values {modified, added,
removed, moved}; a table holding such a row is reachable. -/
theorem drift_type_enum_counterexample :
    driftEventRowCheck deletedRow = true ∧
    deletedRow.drift_type ∉ ["modified", "added", "removed", "moved"] ∧
    DriftTableReachable (insertDriftEvent [] deletedRow) ∧
    deletedRow ∈ insertDriftEvent [] deletedRow := by
  have hcheck : driftEventRowCheck deletedRow = true := by decide
  refine ⟨hcheck, by decide,
    DriftTableReachable.insert [] deletedRow DriftTableReachable.empty, ?_⟩
  unfold insertDriftEvent
  rw [if_pos hcheck]
  exact List.mem_singleton.mpr rfl

/-- A client DriftEvent carrying an arbitrary drift_type string. -/
def mkDriftEventWithType (s : String) : DriftEvent :=
  { exDrift with drift_type := s }

/-- C4 amended: every persisted drift_events row has drift_type in
{modified, deleted, added, moved} (the stored enumeration says deleted,
not removed), while the client DriftEvent record leaves drift_type an
unrestricted string. -/
theorem drift_type_enum_amended (db : List DriftEventRow)
    (h : DriftTableReachable db) :
    (∀ r ∈ db, r.drift_type ∈ ["modified", "deleted", "added", "moved"]) ∧
    (∀ s : String, ∃ d : DriftEvent, d.drift_type = s) := by
  constructor
  · intro r hr
    have hc := driftTable_rows_checked h r hr
    unfold driftEventRowCheck at hc
    simp only [Bool.and_eq_true] at hc
    exact List.elem_iff.mp hc.1.1.1
  · intro s
    exact ⟨mkDriftEventWithType s, rfl⟩

/-- C4 amended witness: the constraint evaluated on the concrete reachable
table holding the "deleted" row. -/
theorem drift_type_enum_amended_witness :
    (∀ r ∈ insertDriftEvent [] deletedRow,
      r.drift_type ∈ ["modified", "deleted", "added", "moved"]) ∧
    (∀ s : String, ∃ d : DriftEvent, d.drift_type = s) :=
  drift_type_enum_amended (insertDriftEvent [] deletedRow)
    (DriftTableReachable.insert [] deletedRow DriftTableReachable.empty)

/-- C5: every element the modelled active-recommendations query returns is
unexpired, unsuperseded, belongs to the requested drift event and comes
from the retained store; superseding a batch deletes nothing, and the
frontend getRecommendations surface passes an array body through
unchanged (plain or DRF-paginated). -/
theorem active_recommendations_exclude_expired (store : List RecRow)
    (drift now : Nat) (fresh : List RecRow) (r : RecRow)
    (xs : List JsonVal) :
    (r ∈ getActiveRecommendations store drift now →
      isExpired now r = false ∧ isSuperseded store r = false ∧
      r.drift_event_id = drift ∧ r ∈ store) ∧
    (r ∈ store → r ∈ addBatch store fresh) ∧
    getRecommendations (.arr xs) = .arr xs ∧
    getRecommendations (.obj [("results", .arr xs)]) = .arr xs := by
  refine ⟨?_, ?_, rfl, rfl⟩
  · intro hr
    have h := List.mem_filter.mp hr
    simp only [Bool.and_eq_true, Bool.not_eq_true', beq_iff_eq] at h
    exact ⟨h.2.1.2, h.2.2, h.2.1.1, h.1⟩
  · intro hr
    unfold addBatch
    exact List.mem_append.mpr (Or.inr hr)

/-- C6: marking a recommendation implemented sets only implemented_at and
implementation_result; the recommendation type, priority, confidence,
rationale, steps, effort and every identifying column are carried over
unchanged, rows with other ids are untouched, and the frontend request
body carries only the result key. -/
theorem implement_without_mutation (store : List RecRow) (rid now : Nat)
    (result : JsonVal) (r : RecRow) :
    ((implementUpdate rid now result r).recommendation_type =
        r.recommendation_type ∧
      (implementUpdate rid now result r).priority = r.priority ∧
      (implementUpdate rid now result r).confidence_score =
        r.confidence_score ∧
      (implementUpdate rid now result r).rationale = r.rationale ∧
      (implementUpdate rid now result r).implementation_steps =
        r.implementation_steps ∧
      (implementUpdate rid now result r).estimated_effort =
        r.estimated_effort ∧
      (implementUpdate rid now result r).id = r.id ∧
      (implementUpdate rid now result r).drift_event_id =
        r.drift_event_id ∧
      (implementUpdate rid now result r).created_at = r.created_at ∧
      (implementUpdate rid now result r).expires_at = r.expires_at) ∧
    (r.id = rid →
      (implementUpdate rid now result r).implemented_at = some now ∧
      (implementUpdate rid now result r).implementation_result =
        some result) ∧
    (r.id ≠ rid → implementUpdate rid now result r = r) ∧
    markImplemented store rid now result =
      store.map (implementUpdate rid now result) ∧
    (∃ v, implementRequestBody result = .obj [("result", v)]) := by
  refine ⟨?_, ?_, ?_, rfl, ⟨_, rfl⟩⟩
  · unfold implementUpdate
    by_cases h : r.id = rid
    · rw [if_pos h]
      exact ⟨rfl, rfl, rfl, rfl, rfl, rfl, rfl, rfl, rfl, rfl⟩
    · rw [if_neg h]
      exact ⟨rfl, rfl, rfl, rfl, rfl, rfl, rfl, rfl, rfl, rfl⟩
  · intro h
    unfold implementUpdate
    rw [if_pos h]
    exact ⟨rfl, rfl⟩
  · intro h
    unfold implementUpdate
    rw [if_neg h]

/-- C7: a recommendation created without an explicit expiry gets
expires_at equal to its creation time plus 24 hours, and no created
recommendation has a null expiry. -/
theorem recommendation_default_expiry (now rid drift batch : Nat)
    (explicitExpiry : Option Nat) (rtype priority : String) (conf : ℚ)
    (rationale : String) (steps : List String) (effort by_ : String) :
    ((createRecommendation now explicitExpiry rid drift batch rtype
        priority conf rationale steps effort by_).expires_at ≠ none) ∧
    (explicitExpiry = none →
      (createRecommendation now explicitExpiry rid drift batch rtype
        priority conf rationale steps effort by_).expires_at =
        some (now + 86400)) ∧
    (createRecommendation now explicitExpiry rid drift batch rtype
      priority conf rationale steps effort by_).created_at = now := by
  refine ⟨?_, ?_, rfl⟩
  · unfold createRecommendation
    simp
  · intro h
    unfold createRecommendation
    rw [h]
    rfl

/-- The inductive invariant of the orchestrator: job handles are below the
fresh counter, job handles are pairwise distinct, and every drift event
has at most one live job. -/
def OrchInv (s : OrchState) : Prop :=
  (∀ j ∈ s.jobs, j.job_id < s.nextId) ∧
  (s.jobs.map Job.job_id).Nodup ∧
  ∀ d, (liveJobs s d).length ≤ 1

/-- Moving a job to a new state never touches the job handles. -/
theorem setJobState_map_id (s : OrchState) (jid : Nat) (st : JobState) :
    (setJobState s jid st).jobs.map Job.job_id = s.jobs.map Job.job_id := by
  unfold setJobState
  rw [List.map_map]
  refine List.map_congr_left ?_
  intro j _
  unfold updState
  dsimp only [Function.comp]
  split <;> rfl

/-- The initial orchestrator state satisfies the invariant. -/
theorem orchInv_init : OrchInv orchInit := by
  refine ⟨?_, ?_, ?_⟩
  · intro j hj; cases hj
  · exact List.nodup_nil
  · intro d; exact Nat.zero_le 1

/-- SubmitAnalysis preserves the orchestrator invariant. -/
theorem submit_preserves {s : OrchState} (hs : OrchInv s) (d : Nat) :
    OrchInv (submitAnalysis s d).1 := by
  obtain ⟨hA, hB, hC⟩ := hs
  cases hfind : s.jobs.find? (fun j => j.drift_id == d && j.state.nonTerminal) with
  | some j =>
    have hstep : (submitAnalysis s d).1 = s := by
      unfold submitAnalysis; rw [hfind]
    rw [hstep]; exact ⟨hA, hB, hC⟩
  | none =>
    have hstep : (submitAnalysis s d).1 =
        { jobs := ⟨s.nextId, d, JobState.queued⟩ :: s.jobs,
          nextId := s.nextId + 1 } := by
      unfold submitAnalysis; rw [hfind]
    have hnone := List.find?_eq_none.mp hfind
    rw [hstep]
    refine ⟨?_, ?_, ?_⟩
    · intro j hj
      rcases List.mem_cons.mp hj with rfl | hj
      · exact Nat.lt_succ_self _
      · exact Nat.lt_succ_of_lt (hA j hj)
    · rw [List.map_cons]
      refine List.nodup_cons.mpr ⟨?_, hB⟩
      intro hmem
      obtain ⟨j, hj, hje⟩ := List.mem_map.mp hmem
      have hlt := hA j hj
      have hje2 : j.job_id = s.nextId := hje
      omega
    · intro d2
      unfold liveJobs
      dsimp only
      rw [List.filter_cons]
      by_cases hd : d2 = d
      · subst hd
        have hzero : s.jobs.filter
            (fun j => j.drift_id == d2 && j.state.nonTerminal) = [] := by
          refine List.filter_eq_nil_iff.mpr ?_
          intro j hj
          exact hnone j hj
        simp only [hzero]
        have : ((⟨s.nextId, d2, JobState.queued⟩ : Job).drift_id == d2 &&
            (JobState.queued).nonTerminal) = true := by
          simp [JobState.nonTerminal]
        rw [if_pos this]
        exact Nat.le_refl 1
      · have hfalse : ((⟨s.nextId, d, JobState.queued⟩ : Job).drift_id == d2 &&
            (JobState.queued).nonTerminal) = false := by
          have : (d == d2) = false := beq_eq_false_iff_ne.mpr fun h => hd h.symm
          simp [this]
        rw [if_neg (by simp [hfalse])]
        exact hC d2

/-- Starting a queued job preserves the orchestrator invariant: under
distinct handles the addressed job is the unique queued one, and it stays
live, so the live count per drift event is unchanged. -/
theorem start_preserves {s : OrchState} (hs : OrchInv s) {j0 : Job}
    (hj0 : j0 ∈ s.jobs) (hq : j0.state = .queued) :
    OrchInv (setJobState s j0.job_id .running) := by
  obtain ⟨hA, hB, hC⟩ := hs
  refine ⟨?_, ?_, ?_⟩
  · intro j hj
    obtain ⟨j1, hj1, rfl⟩ := List.mem_map.mp hj
    have hid : (updState j0.job_id .running j1).job_id = j1.job_id := by
      unfold updState; split <;> rfl
    rw [hid]
    exact hA j1 hj1
  · rw [setJobState_map_id]; exact hB
  · intro d
    have hpoint : ∀ j ∈ s.jobs,
        ((fun jj => jj.drift_id == d && jj.state.nonTerminal) ∘
          updState j0.job_id JobState.running) j =
        (j.drift_id == d && j.state.nonTerminal) := by
      intro j hj
      show ((updState j0.job_id JobState.running j).drift_id == d &&
        (updState j0.job_id JobState.running j).state.nonTerminal) = _
      unfold updState
      by_cases h : j.job_id = j0.job_id
      · rw [if_pos h]
        have hj0eq : j = j0 := List.inj_on_of_nodup_map hB hj hj0 h
        subst hj0eq
        rw [hq]
        rfl
      · rw [if_neg h]
    unfold liveJobs setJobState
    dsimp only
    rw [List.filter_map, List.length_map, List.filter_congr hpoint]
    exact hC d

/-- Moving a job to a terminal state preserves the orchestrator invariant:
the touched job stops being live, every other job is unchanged. -/
theorem terminal_preserves {s : OrchState} (hs : OrchInv s) (jid : Nat)
    {st : JobState} (hterm : st.nonTerminal = false) :
    OrchInv (setJobState s jid st) := by
  obtain ⟨hA, hB, hC⟩ := hs
  refine ⟨?_, ?_, ?_⟩
  · intro j hj
    obtain ⟨j1, hj1, rfl⟩ := List.mem_map.mp hj
    have hid : (updState jid st j1).job_id = j1.job_id := by
      unfold updState; split <;> rfl
    rw [hid]
    exact hA j1 hj1
  · rw [setJobState_map_id]; exact hB
  · intro d
    have hpoint : ∀ j ∈ s.jobs,
        ((fun jj => jj.drift_id == d && jj.state.nonTerminal) ∘
          updState jid st) j = true →
        (j.drift_id == d && j.state.nonTerminal) = true := by
      intro j hj h
      have h2 : ((updState jid st j).drift_id == d &&
          (updState jid st j).state.nonTerminal) = true := h
      unfold updState at h2
      by_cases hid : j.job_id = jid
      · rw [if_pos hid] at h2
        simp only [Bool.and_eq_true] at h2
        have hcontra := h2.2
        rw [hterm] at hcontra
        simp at hcontra
      · rwa [if_neg hid] at h2
    unfold liveJobs setJobState
    dsimp only
    rw [List.filter_map, List.length_map, ← List.countP_eq_length_filter]
    calc s.jobs.countP ((fun jj => jj.drift_id == d && jj.state.nonTerminal) ∘
          updState jid st)
        ≤ s.jobs.countP (fun j => j.drift_id == d && j.state.nonTerminal) :=
          List.countP_mono_left hpoint
      _ ≤ 1 := by
          rw [List.countP_eq_length_filter]
          exact hC d

/-- Every orchestrator transition preserves the invariant. -/
theorem orchStep_preserves {s t : OrchState} (hs : OrchInv s)
    (h : OrchStep s t) : OrchInv t := by
  cases h with
  | submit d => exact submit_preserves hs d
  | start j hj hq => exact start_preserves hs hj hq
  | complete j hj hr => exact terminal_preserves hs j.job_id rfl
  | fail j hj hr => exact terminal_preserves hs j.job_id rfl

/-- Every reachable orchestrator state satisfies the invariant. -/
theorem orchInv_reachable {s : OrchState} (h : OrchReachable s) :
    OrchInv s := by
  induction h with
  | init => exact orchInv_init
  | step s t _ hstep ih => exact orchStep_preserves ih hstep

/-- While a live job for the drift exists, SubmitAnalysis leaves the
orchestrator state unchanged. -/
theorem submit_noop {s : OrchState} {d : Nat} (h : liveJobs s d ≠ []) :
    (submitAnalysis s d).1 = s := by
  cases hfind : s.jobs.find? (fun j => j.drift_id == d && j.state.nonTerminal) with
  | some j => unfold submitAnalysis; rw [hfind]
  | none =>
    exfalso
    apply h
    refine List.filter_eq_nil_iff.mpr ?_
    intro j hj
    exact List.find?_eq_none.mp hfind j hj

/-- Repeated SubmitAnalysis while a live job exists stays a no-op. -/
theorem submitIter_noop {s : OrchState} {d : Nat} (h : liveJobs s d ≠ []) :
    ∀ n, submitIter n s d = s := by
  intro n
  induction n with
  | zero => rfl
  | succ n ih =>
    show submitIter n (submitAnalysis s d).1 d = s
    rw [submit_noop h]
    exact ih

/-- SubmitAnalysis on a drift with no live job enqueues exactly one fresh
queued job for it. -/
theorem submit_fresh {s : OrchState} {d : Nat} (h : liveJobs s d = []) :
    (jobsFor (submitAnalysis s d).1 d).length = (jobsFor s d).length + 1 ∧
    liveJobs (submitAnalysis s d).1 d = [⟨s.nextId, d, .queued⟩] := by
  have hfind : s.jobs.find?
      (fun j => j.drift_id == d && j.state.nonTerminal) = none := by
    rw [List.find?_eq_none]
    intro j hj
    exact List.filter_eq_nil_iff.mp h j hj
  have hstep : (submitAnalysis s d).1 =
      { jobs := ⟨s.nextId, d, JobState.queued⟩ :: s.jobs,
        nextId := s.nextId + 1 } := by
    unfold submitAnalysis; rw [hfind]
  rw [hstep]
  constructor
  · unfold jobsFor
    dsimp only
    rw [List.filter_cons]
    rw [if_pos (by simp)]
    rfl
  · unfold liveJobs
    dsimp only
    rw [List.filter_cons]
    rw [if_pos (by simp [JobState.nonTerminal])]
    rw [show s.jobs.filter
      (fun j => j.drift_id == d && j.state.nonTerminal) = [] from h]

/-- C8: in every reachable orchestrator state each drift event has at most
one live (queued or running) job; while one exists, SubmitAnalysis returns
its handle without changing the state; and from a state with no live job,
any number of repeated submissions creates exactly one job, leaving
exactly one live job. -/
theorem at_most_one_live_analysis (s : OrchState) (h : OrchReachable s)
    (d n : Nat) :
    (liveJobs s d).length ≤ 1 ∧
    (liveJobs s d ≠ [] → (submitAnalysis s d).1 = s ∧
      ∃ j ∈ s.jobs, j.drift_id = d ∧ j.state.nonTerminal = true ∧
        (submitAnalysis s d).2 = j.job_id) ∧
    (liveJobs s d = [] → 1 ≤ n →
      (jobsFor (submitIter n s d) d).length = (jobsFor s d).length + 1 ∧
      (liveJobs (submitIter n s d) d).length = 1) := by
  refine ⟨(orchInv_reachable h).2.2 d, ?_, ?_⟩
  · intro hne
    cases hfind : s.jobs.find?
        (fun j => j.drift_id == d && j.state.nonTerminal) with
    | some j =>
      have hmem := List.mem_of_find?_eq_some hfind
      have hpred := List.find?_some hfind
      simp only [Bool.and_eq_true, beq_iff_eq] at hpred
      have hfst : (submitAnalysis s d).1 = s := by
        unfold submitAnalysis; rw [hfind]
      have hsnd : (submitAnalysis s d).2 = j.job_id := by
        unfold submitAnalysis; rw [hfind]
      exact ⟨hfst, j, hmem, hpred.1, hpred.2, hsnd⟩
    | none =>
      exfalso
      apply hne
      refine List.filter_eq_nil_iff.mpr ?_
      intro j hj
      exact List.find?_eq_none.mp hfind j hj
  · intro hempty hn
    obtain ⟨m, rfl⟩ : ∃ m, n = m + 1 := ⟨n - 1, by omega⟩
    obtain ⟨hcount, hlive⟩ := submit_fresh hempty
    have hne : liveJobs (submitAnalysis s d).1 d ≠ [] := by
      rw [hlive]; simp
    have hiter : submitIter (m + 1) s d = (submitAnalysis s d).1 :=
      submitIter_noop hne m
    rw [hiter]
    exact ⟨hcount, by rw [hlive]; rfl⟩

/-- C8 witness: the job-control properties evaluated at the initial state
for a concrete drift id and two repeated submissions. -/
theorem at_most_one_live_analysis_witness :
    (liveJobs orchInit 3).length ≤ 1 ∧
    (liveJobs orchInit 3 ≠ [] → (submitAnalysis orchInit 3).1 = orchInit ∧
      ∃ j ∈ orchInit.jobs, j.drift_id = 3 ∧ j.state.nonTerminal = true ∧
        (submitAnalysis orchInit 3).2 = j.job_id) ∧
    (liveJobs orchInit 3 = [] → 1 ≤ 2 →
      (jobsFor (submitIter 2 orchInit 3) 3).length =
        (jobsFor orchInit 3).length + 1 ∧
      (liveJobs (submitIter 2 orchInit 3) 3).length = 1) :=
  at_most_one_live_analysis orchInit OrchReachable.init 3 2

/-- C9 counterexample: a body whose results field is bound to null has the
field, yet the unwrap returns the empty array rather than that value; and
a body whose truthy results field is a string makes getDrifts return a
non-array. -/
theorem list_unwrap_counterexample :
    hasField (JsonVal.obj [("results", JsonVal.null)]) "results" = true ∧
    getField (JsonVal.obj [("results", JsonVal.null)]) "results" =
      JsonVal.null ∧
    unwrapListResponse (JsonVal.obj [("results", JsonVal.null)]) =
      JsonVal.arr [] ∧
    JsonVal.arr [] ≠ JsonVal.null ∧
    getDrifts (JsonVal.obj [("results", JsonVal.str "oops")]) =
      JsonVal.str "oops" ∧
    isArr (JsonVal.str "oops") = false := by
  refine ⟨rfl, rfl, rfl, ?_, rfl, rfl⟩
  intro h
  exact JsonVal.noConfusion h

/-- C9 amended: the four list-fetching services return the results field
when the body and that field are truthy, the body itself when it is an
array, and the empty array otherwise; consequently the result is an array
for every body whose truthy results field, if any, is an array. -/
theorem list_unwrap_amended (data : JsonVal) :
    (truthy data = true → truthy (getField data "results") = true →
      unwrapListResponse data = getField data "results") ∧
    ((truthy data && truthy (getField data "results")) = false →
      isArr data = true → unwrapListResponse data = data) ∧
    ((truthy data && truthy (getField data "results")) = false →
      isArr data = false → unwrapListResponse data = JsonVal.arr []) ∧
    ((truthy (getField data "results") = true →
        isArr (getField data "results") = true) →
      isArr (unwrapListResponse data) = true) ∧
    getDrifts data = unwrapListResponse data ∧
    getRecommendations data = unwrapListResponse data ∧
    getEnvironments data = unwrapListResponse data ∧
    getOrganizations data = unwrapListResponse data := by
  refine ⟨?_, ?_, ?_, ?_, rfl, rfl, rfl, rfl⟩
  · intro h1 h2
    unfold unwrapListResponse
    rw [if_pos (by rw [h1, h2]; rfl)]
  · intro h1 h2
    unfold unwrapListResponse
    rw [if_neg (by simp [h1]), if_pos h2]
  · intro h1 h2
    unfold unwrapListResponse
    rw [if_neg (by simp [h1]), if_neg (by simp [h2])]
  · intro harr
    unfold unwrapListResponse
    by_cases h : (truthy data && truthy (getField data "results")) = true
    · rw [if_pos h]
      have h2 := h
      simp only [Bool.and_eq_true] at h2
      exact harr h2.2
    · have hf : (truthy data && truthy (getField data "results")) = false := by
        revert h; cases truthy data && truthy (getField data "results") <;> simp
      rw [if_neg (by simp [hf])]
      by_cases ha : isArr data = true
      · rw [if_pos ha]; exact ha
      · have ha2 : isArr data = false := by
          revert ha; cases isArr data <;> simp
        rw [if_neg (by simp [ha2])]
        rfl

/-- C10 counterexample: a login whose auth response carries the empty
string as access token stores it, yet isAuthenticated reads it as falsy
and stays false right after login resolves. -/
theorem auth_empty_token_counterexample :
    isAuthenticated (login [] "" "sometoken") = false ∧
    getItem (login [] "" "sometoken") "access_token" = some "" := by
  exact ⟨rfl, rfl⟩

/-- One unfolding step of a key lookup on a cons cell. -/
theorem find?_cons_key (p : String × String) (l : Storage) (k2 : String) :
    List.find? (fun q => q.1 == k2) (p :: l) =
      if (p.1 == k2) = true then some p
      else List.find? (fun q => q.1 == k2) l := by
  by_cases h : (p.1 == k2) = true
  · rw [if_pos h]
    exact @List.find?_cons_of_pos _ (fun q => q.1 == k2) p l h
  · rw [if_neg h]
    exact @List.find?_cons_of_neg _ (fun q => q.1 == k2) p l h

/-- Reading one key is unaffected by filtering out the bindings of a
different key. -/
theorem find?_filter_ne (st : Storage) (k k2 : String) (h : k2 ≠ k) :
    (st.filter (fun p => !(p.1 == k))).find? (fun p => p.1 == k2) =
      st.find? (fun p => p.1 == k2) := by
  induction st with
  | nil => rfl
  | cons p l ih =>
    rw [List.filter_cons]
    by_cases hp : p.1 = k
    · rw [if_neg (by simp [hp])]
      have hne : (p.1 == k2) = false :=
        beq_eq_false_iff_ne.mpr (fun hh => h (by rw [← hh]; exact hp))
      rw [ih, find?_cons_key, if_neg (by simp [hne])]
    · rw [if_pos (by simp [hp])]
      rw [find?_cons_key, find?_cons_key]
      by_cases hk2 : (p.1 == k2) = true
      · rw [if_pos hk2, if_pos hk2]
      · rw [if_neg hk2, if_neg hk2]
        exact ih

/-- Reading the stored binding right after setItem on the same key. -/
theorem getItem_setItem_self (st : Storage) (k v : String) :
    getItem (setItem st k v) k = some v := by
  unfold getItem setItem
  rw [find?_cons_key, if_pos (by simp)]
  rfl

/-- setItem on one key does not change the read of another key. -/
theorem getItem_setItem_other (st : Storage) (k v k2 : String)
    (h : k2 ≠ k) : getItem (setItem st k v) k2 = getItem st k2 := by
  unfold getItem setItem
  rw [find?_cons_key, if_neg (by simp; exact fun hh => h hh.symm)]
  rw [find?_filter_ne st k k2 h]

/-- removeItem erases every binding of the key. -/
theorem getItem_removeItem_self (st : Storage) (k : String) :
    getItem (removeItem st k) k = none := by
  unfold getItem removeItem
  rw [List.find?_eq_none.mpr]
  · rfl
  · intro p hp
    have := (List.mem_filter.mp hp).2
    simp only [Bool.not_eq_true', beq_eq_false_iff_ne] at this
    simp [this]

/-- removeItem on one key does not change the read of another key. -/
theorem getItem_removeItem_other (st : Storage) (k k2 : String)
    (h : k2 ≠ k) : getItem (removeItem st k) k2 = getItem st k2 := by
  unfold getItem removeItem
  rw [find?_filter_ne st k k2 h]

/-- C10 amended: after login or register with a nonempty access token,
isAuthenticated is true; after logout both tokens are removed and
isAuthenticated is false; in particular login followed by logout restores
the unauthenticated state for every input. -/
theorem auth_token_roundtrip (st : Storage) (access refresh : String) :
    (access ≠ "" → isAuthenticated (login st access refresh) = true) ∧
    (access ≠ "" →
      isAuthenticated (registerUser st access refresh) = true) ∧
    isAuthenticated (logout st) = false ∧
    getItem (logout st) "access_token" = none ∧
    getItem (logout st) "refresh_token" = none ∧
    isAuthenticated (logout (login st access refresh)) = false := by
  have hlogin : ∀ s1 : Storage,
      getItem (login s1 access refresh) "access_token" = some access := by
    intro s1
    unfold login
    rw [getItem_setItem_other _ _ _ _ (by decide), getItem_setItem_self]
  have hlogout_access : ∀ s1 : Storage,
      getItem (logout s1) "access_token" = none := by
    intro s1
    unfold logout
    rw [getItem_removeItem_other _ _ _ (by decide), getItem_removeItem_self]
  refine ⟨?_, ?_, ?_, hlogout_access st, ?_, ?_⟩
  · intro h
    unfold isAuthenticated
    rw [hlogin st]
    simp [truthyRead, h]
  · intro h
    unfold isAuthenticated registerUser
    rw [show setItem (setItem st "access_token" access) "refresh_token"
        refresh = login st access refresh from rfl]
    rw [hlogin st]
    simp [truthyRead, h]
  · unfold isAuthenticated
    rw [hlogout_access st]
    rfl
  · unfold logout
    exact getItem_removeItem_self _ _
  · unfold isAuthenticated
    rw [hlogout_access (login st access refresh)]
    rfl

end DriftGuard
